import Mathlib

/-
Verification of the DataNormalizer library (Sun Tracker, 2012).

The repository contains two variants of the same piecewise-linear
normalizer:

* a single-channel class (table-validity variant): the constructor stores
  `_Count = aNumberOfArrayElements - 1` (byte arithmetic) and validates the
  table; `FindPosition` scans indices `0.._Count` and `Compensate`
  interpolates or clamps;
* a multi-channel class (`DataNormalizer.cpp`): `Init` validates the
  configuration, `FindPosition` scans indices `0.._VectorSize` and
  `Compensate` interpolates or clamps, applied per channel by
  `Read` / `Normalize` / `ReadAndNormalize`.

Modelling conventions: C `int` values are modelled as unbounded integers
(the reference integer semantics; `/` on intermediate products is the
C truncating division, `Int.tdiv`).  Array-typed pointers are modelled as
total functions from indices to values, so an access one past the end of a
table is the (well-defined in the model) read of the next memory word.
Unsigned byte wrap-around, which is defined behaviour in C, is modelled
exactly where it occurs (`constructorCount`).  The `char` narrowing of
`FindPosition`'s return value is implementation-defined on the target and
is idealized as an unbounded integer here.
-/

/-- Sentinel stored in the segment marker when the raw value lies below the
lowest breakpoint (`SEGMENT_INDEX_LOW` in the header). -/
def SEGMENT_INDEX_LOW : ℤ := -1

/-- Sentinel stored in the segment marker when the raw value lies above the
highest breakpoint (`SEGMENT_INDEX_HIGH` in the header). -/
def SEGMENT_INDEX_HIGH : ℤ := -2

/-- Maximum number of analogue inputs on the Arduino Uno (header constant). -/
def MAX_NUM_ANALOGUE_INPUTS : ℕ := 6

/-- Arduino `map` builtin used by both `Compensate` implementations:
`(x - in_min) * (out_max - out_min) / (in_max - in_min) + out_min`, with
C integer division truncating toward zero. -/
def map (x in_min in_max out_min out_max : ℤ) : ℤ :=
  Int.tdiv ((x - in_min) * (out_max - out_min)) (in_max - in_min) + out_min

/-- First index `i` with `start ≤ i < start + fuel` satisfying `p`, scanning
upward; models the ascending `for` loop in both `FindPosition` bodies. -/
def findFirst (p : ℕ → Bool) : ℕ → ℕ → Option ℕ
  | _, 0 => none
  | start, fuel + 1 => if p start then some start else findFirst p (start + 1) fuel

/-- Indices whose table entry the scanning loop reads: every visited index,
including the one where the comparison succeeds. -/
def findFirstReads (p : ℕ → Bool) : ℕ → ℕ → List ℕ
  | _, 0 => []
  | start, fuel + 1 =>
      start :: (if p start then [] else findFirstReads p (start + 1) fuel)

theorem findFirst_spec {p : ℕ → Bool} :
    ∀ {fuel start i : ℕ}, findFirst p start fuel = some i →
      start ≤ i ∧ i < start + fuel ∧ p i = true ∧
        ∀ j, start ≤ j → j < i → p j = false := by
  intro fuel
  induction fuel with
  | zero => intro start i h; simp [findFirst] at h
  | succ n ih =>
    intro start i h
    rw [findFirst] at h
    cases hp : p start with
    | true =>
      simp only [hp, if_true, Option.some.injEq] at h
      subst h
      exact ⟨Nat.le_refl _, by omega, hp, fun j h1 h2 => by omega⟩
    | false =>
      simp only [hp, Bool.false_eq_true, if_false] at h
      obtain ⟨h1, h2, h3, h4⟩ := ih h
      refine ⟨by omega, by omega, h3, fun j hj1 hj2 => ?_⟩
      rcases Nat.eq_or_lt_of_le hj1 with rfl | hj1'
      · exact hp
      · exact h4 j hj1' hj2

theorem findFirst_eq_none_of {p : ℕ → Bool} :
    ∀ {fuel start : ℕ}, (∀ j, start ≤ j → j < start + fuel → p j = false) →
      findFirst p start fuel = none := by
  intro fuel
  induction fuel with
  | zero => intro start _; rfl
  | succ n ih =>
    intro start h
    rw [findFirst, h start (Nat.le_refl _) (by omega)]
    simp only [Bool.false_eq_true, if_false]
    exact ih fun j h1 h2 => h j (by omega) (by omega)

theorem findFirst_eq_some_of {p : ℕ → Bool} :
    ∀ {fuel start i : ℕ}, start ≤ i → i < start + fuel → p i = true →
      (∀ j, start ≤ j → j < i → p j = false) →
      findFirst p start fuel = some i := by
  intro fuel
  induction fuel with
  | zero => intro start i _ h2 _ _; omega
  | succ n ih =>
    intro start i h1 h2 h3 h4
    rw [findFirst]
    rcases Nat.eq_or_lt_of_le h1 with rfl | h1'
    · rw [h3]; simp
    · rw [h4 start (Nat.le_refl _) h1']
      simp only [Bool.false_eq_true, if_false]
      exact ih h1' (by omega) h3 fun j hj1 hj2 => h4 j (by omega) hj2

namespace SingleChannel

/-- FindPosition of the single-channel variant (part_000): scans
`i = 0.._Count` and returns `i - 1` at the first `i` with
`aValue <= _Segments[i]`; returns `_Count` if the loop completes. -/
def FindPosition (Segments : ℕ → ℤ) (Count : ℕ) (aValue : ℤ) : ℤ :=
  match findFirst (fun i => decide (aValue ≤ Segments i)) 0 (Count + 1) with
  | some i => (i : ℤ) - 1
  | none => (Count : ℤ)

/-- Compensate of the single-channel variant (part_000).  Returns the pair
(normalized value, `_Segment` marker): clamps to `_Normalized[0]` below
range, to `_Normalized[_Count]` above range, and otherwise interpolates
with `map` on the segment found by `FindPosition`. -/
def Compensate (Segments Normalized : ℕ → ℤ) (Count : ℕ) (aValue : ℤ) : ℤ × ℤ :=
  let lIndex := FindPosition Segments Count aValue
  if lIndex < 0 then (Normalized 0, SEGMENT_INDEX_LOW)
  else if (Count : ℤ) ≤ lIndex then (Normalized Count, SEGMENT_INDEX_HIGH)
  else (map aValue (Segments lIndex.toNat) (Segments (lIndex.toNat + 1))
          (Normalized lIndex.toNat) (Normalized (lIndex.toNat + 1)), lIndex)

end SingleChannel

namespace MultiChannel

/-- FindPosition of the multi-channel variant (`DataNormalizer.cpp`): scans
`i = 0.._VectorSize` (so it reads `aVector[_VectorSize]`, one past a table
of `_VectorSize` entries) and returns `i - 1` at the first hit; returns
`_VectorSize` if the loop completes. -/
def FindPosition (aVector : ℕ → ℤ) (VectorSize : ℕ) (aValue : ℤ) : ℤ :=
  match findFirst (fun i => decide (aValue ≤ aVector i)) 0 (VectorSize + 1) with
  | some i => (i : ℤ) - 1
  | none => (VectorSize : ℤ)

/-- Indices of `aVector` read by the multi-channel `FindPosition` loop. -/
def FindPositionReads (aVector : ℕ → ℤ) (VectorSize : ℕ) (aValue : ℤ) : List ℕ :=
  findFirstReads (fun i => decide (aValue ≤ aVector i)) 0 (VectorSize + 1)

/-- Compensate of the multi-channel variant (`DataNormalizer.cpp`).  Returns
(normalized value, segment marker).  In the above-range branch the source
returns `_NormalizedVector[_VectorSize]`, the entry one past a table of
`_VectorSize` elements. -/
def Compensate (aVector NormalizedVector : ℕ → ℤ) (VectorSize : ℕ) (aValue : ℤ) :
    ℤ × ℤ :=
  let idx := FindPosition aVector VectorSize aValue
  if idx < 0 then (NormalizedVector 0, SEGMENT_INDEX_LOW)
  else if (VectorSize : ℤ) ≤ idx then (NormalizedVector VectorSize, SEGMENT_INDEX_HIGH)
  else (map aValue (aVector idx.toNat) (aVector (idx.toNat + 1))
          (NormalizedVector idx.toNat) (NormalizedVector (idx.toNat + 1)), idx)

theorem FindPosition_eq_single (aVector : ℕ → ℤ) (VectorSize : ℕ) (aValue : ℤ) :
    FindPosition aVector VectorSize aValue =
      SingleChannel.FindPosition aVector VectorSize aValue := rfl

theorem Compensate_eq_single (aVector NormalizedVector : ℕ → ℤ) (VectorSize : ℕ)
    (aValue : ℤ) :
    Compensate aVector NormalizedVector VectorSize aValue =
      SingleChannel.Compensate aVector NormalizedVector VectorSize aValue := rfl

end MultiChannel

/-- Ascending breakpoint table over its first `V` entries (the spec's
"strictly ascending" requirement, stated on adjacent entries as the
single-channel `Init` checks it). -/
abbrev Ascending (f : ℕ → ℤ) (V : ℕ) : Prop := ∀ i, i < V - 1 → f i < f (i + 1)

/-- Normalized table monotone nondecreasing over its first `V` entries. -/
abbrev NondecreasingOn (f : ℕ → ℤ) (V : ℕ) : Prop := ∀ i, i < V - 1 → f i ≤ f (i + 1)

/-- Normalized table monotone nonincreasing over its first `V` entries. -/
abbrev NonincreasingOn (f : ℕ → ℤ) (V : ℕ) : Prop := ∀ i, i < V - 1 → f (i + 1) ≤ f i

theorem Ascending_lt {f : ℕ → ℤ} {V : ℕ} (h : Ascending f V) {i j : ℕ}
    (hij : i < j) (hj : j < V) : f i < f j := by
  have H : ∀ j, j < V → ∀ i, i < j → f i < f j := by
    intro j
    induction j with
    | zero => intro _ i hi; omega
    | succ k ih =>
      intro hk i hi
      rcases Nat.lt_succ_iff_lt_or_eq.mp hi with h' | h'
      · exact lt_trans (ih (by omega) i h') (h k (by omega))
      · subst h'; exact h i (by omega)
  exact H j hj i hij

namespace SingleChannel

theorem FindPosition_eq_neg_one {Segments : ℕ → ℤ} {Count : ℕ} {aValue : ℤ}
    (h : aValue ≤ Segments 0) : FindPosition Segments Count aValue = -1 := by
  unfold FindPosition
  rw [findFirst_eq_some_of (Nat.le_refl 0) (by omega) (decide_eq_true h)
        (fun j h1 h2 => by omega)]
  simp

theorem FindPosition_eq_count {Segments : ℕ → ℤ} {Count : ℕ} {aValue : ℤ}
    (h : ∀ i, i ≤ Count → Segments i < aValue) :
    FindPosition Segments Count aValue = (Count : ℤ) := by
  unfold FindPosition
  rw [findFirst_eq_none_of fun j _ hj =>
        decide_eq_false (not_le.mpr (h j (by omega)))]

theorem FindPosition_eq_seg {Segments : ℕ → ℤ} {Count : ℕ} {aValue : ℤ} {i : ℕ}
    (hi : i ≤ Count) (hv : aValue ≤ Segments i)
    (hlow : ∀ j, j < i → Segments j < aValue) :
    FindPosition Segments Count aValue = (i : ℤ) - 1 := by
  unfold FindPosition
  rw [findFirst_eq_some_of (Nat.zero_le i) (by omega) (decide_eq_true hv)
        (fun j _ hj => decide_eq_false (not_le.mpr (hlow j hj)))]

theorem FindPosition_of_some {Segments : ℕ → ℤ} {Count : ℕ} {aValue : ℤ} {i : ℕ}
    (h : findFirst (fun j => decide (aValue ≤ Segments j)) 0 (Count + 1) = some i) :
    FindPosition Segments Count aValue = (i : ℤ) - 1 := by
  unfold FindPosition
  rw [h]

theorem FindPosition_of_none {Segments : ℕ → ℤ} {Count : ℕ} {aValue : ℤ}
    (h : findFirst (fun j => decide (aValue ≤ Segments j)) 0 (Count + 1) = none) :
    FindPosition Segments Count aValue = (Count : ℤ) := by
  unfold FindPosition
  rw [h]

theorem FindPosition_range (Segments : ℕ → ℤ) (Count : ℕ) (aValue : ℤ) :
    -1 ≤ FindPosition Segments Count aValue ∧
      FindPosition Segments Count aValue ≤ (Count : ℤ) := by
  rcases hf : findFirst (fun j => decide (aValue ≤ Segments j)) 0 (Count + 1) with _ | i
  · rw [FindPosition_of_none hf]
    constructor <;> omega
  · obtain ⟨-, h2, -, -⟩ := findFirst_spec hf
    rw [FindPosition_of_some hf]
    constructor <;> omega

theorem FindPosition_seg_spec {Segments : ℕ → ℤ} {Count : ℕ} {aValue : ℤ} {s : ℕ}
    (h : FindPosition Segments Count aValue = (s : ℤ)) (hs : s < Count) :
    Segments s < aValue ∧ aValue ≤ Segments (s + 1) := by
  rcases hf : findFirst (fun j => decide (aValue ≤ Segments j)) 0 (Count + 1) with _ | i
  · rw [FindPosition_of_none hf] at h; omega
  · rw [FindPosition_of_some hf] at h
    obtain ⟨-, -, h3, h4⟩ := findFirst_spec hf
    have hi : i = s + 1 := by omega
    subst hi
    refine ⟨?_, of_decide_eq_true h3⟩
    have := h4 s (Nat.zero_le s) (by omega)
    exact not_le.mp (of_decide_eq_false this)

theorem Compensate_below {Segments Normalized : ℕ → ℤ} {Count : ℕ} {aValue : ℤ}
    (h : aValue ≤ Segments 0) :
    Compensate Segments Normalized Count aValue = (Normalized 0, SEGMENT_INDEX_LOW) := by
  unfold Compensate
  rw [FindPosition_eq_neg_one h]
  norm_num

theorem Compensate_above {Segments Normalized : ℕ → ℤ} {Count : ℕ} {aValue : ℤ}
    (h : ∀ i, i ≤ Count → Segments i < aValue) :
    Compensate Segments Normalized Count aValue =
      (Normalized Count, SEGMENT_INDEX_HIGH) := by
  unfold Compensate
  rw [FindPosition_eq_count h]
  norm_num

theorem Compensate_seg {Segments Normalized : ℕ → ℤ} {Count : ℕ} {aValue : ℤ}
    {s : ℕ} (h : FindPosition Segments Count aValue = (s : ℤ)) (hs : s < Count) :
    Compensate Segments Normalized Count aValue =
      (map aValue (Segments s) (Segments (s + 1)) (Normalized s) (Normalized (s + 1)),
        (s : ℤ)) := by
  unfold Compensate
  rw [h]
  rw [if_neg (by omega), if_neg (by omega)]
  simp

end SingleChannel

theorem tdiv_le_tdiv_of_nonneg {a b d : ℤ} (ha : 0 ≤ a) (hd : 0 < d) (h : a ≤ b) :
    a.tdiv d ≤ b.tdiv d := by
  rw [Int.tdiv_eq_ediv ha hd.le, Int.tdiv_eq_ediv (ha.trans h) hd.le]
  exact Int.ediv_le_ediv hd h

theorem tdiv_le_tdiv {a b d : ℤ} (hd : 0 < d) (h : a ≤ b) :
    a.tdiv d ≤ b.tdiv d := by
  rcases le_or_lt 0 a with ha | ha
  · exact tdiv_le_tdiv_of_nonneg ha hd h
  · rcases le_or_lt 0 b with hb | hb
    · have h1 : 0 ≤ (-a).tdiv d := Int.tdiv_nonneg (by omega) hd.le
      have h2 : (-a).tdiv d = -a.tdiv d := Int.neg_tdiv a d
      have h3 : 0 ≤ b.tdiv d := Int.tdiv_nonneg hb hd.le
      omega
    · have h1 : (-b).tdiv d ≤ (-a).tdiv d :=
        tdiv_le_tdiv_of_nonneg (by omega) hd (by omega)
      have h2 : (-a).tdiv d = -a.tdiv d := Int.neg_tdiv a d
      have h3 : (-b).tdiv d = -b.tdiv d := Int.neg_tdiv b d
      omega

theorem map_right_endpoint {a b p q : ℤ} (h : a < b) : map b a b p q = q := by
  unfold map
  rw [Int.mul_tdiv_cancel_left _ (by omega : b - a ≠ 0)]
  omega

theorem map_mono_of_le {a b p q x1 x2 : ℤ} (hab : a < b) (hpq : p ≤ q)
    (h : x1 ≤ x2) : map x1 a b p q ≤ map x2 a b p q := by
  unfold map
  have h1 : (x1 - a) * (q - p) ≤ (x2 - a) * (q - p) :=
    mul_le_mul_of_nonneg_right (by omega) (by omega)
  have h2 := tdiv_le_tdiv (show (0 : ℤ) < b - a by omega) h1
  omega

theorem map_anti_of_ge {a b p q x1 x2 : ℤ} (hab : a < b) (hpq : q ≤ p)
    (h : x1 ≤ x2) : map x2 a b p q ≤ map x1 a b p q := by
  unfold map
  have h1 : (x2 - a) * (q - p) ≤ (x1 - a) * (q - p) :=
    mul_le_mul_of_nonpos_right (by omega) (by omega)
  have h2 := tdiv_le_tdiv (show (0 : ℤ) < b - a by omega) h1
  omega

namespace SingleChannel

/-- Status code `S_OK` of the single-channel variant. -/
def S_OK : ℕ := 0

/-- Status code `F_NOT_INITIALIZED` of the single-channel variant. -/
def F_NOT_INITIALIZED : ℕ := 1

/-- Status code `F_SEGMENTS_NOT_ASCENDING` of the single-channel variant. -/
def F_SEGMENTS_NOT_ASCENDING : ℕ := 2

/-- Status code `F_NOT_ENOUGH_DATA` of the single-channel variant. -/
def F_NOT_ENOUGH_DATA : ℕ := 3

/-- Init of the single-channel variant: `F_NOT_ENOUGH_DATA` when `_Count < 1`,
`F_SEGMENTS_NOT_ASCENDING` when some adjacent pair `i, i+1` with
`i < _Count` has `_Segments[i] >= _Segments[i+1]`, else `S_OK`. -/
def InitStatus (Segments : ℕ → ℤ) (Count : ℕ) : ℕ :=
  if Count < 1 then F_NOT_ENOUGH_DATA
  else if (List.range Count).any (fun i => decide (Segments (i + 1) ≤ Segments i)) then
    F_SEGMENTS_NOT_ASCENDING
  else S_OK

/-- Count stored by the constructor: `_Count = aNumberOfArrayElements - 1`,
computed in unsigned 8-bit (`byte`) arithmetic, so the argument 0 wraps
to 255. -/
def constructorCount (aNumberOfArrayElements : ℕ) : ℕ :=
  (aNumberOfArrayElements + 255) % 256

/-- Status after the single-channel constructor runs on a table pointer and
a declared element count: the constructor stores `_Count` and calls `Init`. -/
def constructorStatus (aNumberOfArrayElements : ℕ) (Segments : ℕ → ℤ) : ℕ :=
  InitStatus Segments (constructorCount aNumberOfArrayElements)

end SingleChannel

namespace MultiChannel

/-- Status codes of the multi-channel variant (header enum `ErrorCodes`). -/
inductive ErrorCodes
  | S_OK
  | F_Uninitialized
  | F_BadNumberOfSensors
  | F_NoSensorList
  | F_BadPinNumber
  | F_BadVectorSize
  | F_MissingCalibrationVector
  | F_MissingNormalizedVector
deriving DecidableEq

/-- Init of the multi-channel variant: the validation chain, short-circuiting
on the first violation.  `aNumberOfSensors` and the pins are `byte` values,
so the source's `< 0` comparisons are never true and are dropped.  Null
pointers are modelled by `Option`.  The calibration-vector null check loops
`for(i=0; i<aVectorSize; i++)`, i.e. over the first `aVectorSize` entries of
the calibration-vectors array. -/
def Init (aNumberOfSensors : ℕ) (aSensorsToUse : Option (ℕ → ℕ)) (aVectorSize : ℕ)
    (aCalibrationVectors : ℕ → Option (ℕ → ℤ))
    (aNormalizedVector : Option (ℕ → ℤ)) : ErrorCodes :=
  if MAX_NUM_ANALOGUE_INPUTS < aNumberOfSensors then ErrorCodes.F_BadNumberOfSensors
  else
    match aSensorsToUse with
    | none => ErrorCodes.F_NoSensorList
    | some pins =>
      if (List.range aNumberOfSensors).any
          (fun i => decide (MAX_NUM_ANALOGUE_INPUTS ≤ pins i)) then
        ErrorCodes.F_BadPinNumber
      else if aVectorSize < 2 then ErrorCodes.F_BadVectorSize
      else if (List.range aVectorSize).any
          (fun i => (aCalibrationVectors i).isNone) then
        ErrorCodes.F_MissingCalibrationVector
      else
        match aNormalizedVector with
        | none => ErrorCodes.F_MissingNormalizedVector
        | some _ => ErrorCodes.S_OK

/-- State of the multi-channel bank: status code, the `Readings`,
`Normalized` and `_SegmentBases` arrays, and the configuration copied by
`Init` (sensor count, vector size, per-channel calibration tables, shared
normalized table). -/
structure BankState where
  StatusCode : ErrorCodes
  Readings : ℕ → ℤ
  Normalized : ℕ → ℤ
  SegmentBases : ℕ → ℤ
  SensorCount : ℕ
  VectorSize : ℕ
  CalibrationVectors : ℕ → ℕ → ℤ
  NormalizedVector : ℕ → ℤ

/-- Read of the multi-channel variant: refuses when `_StatusCode != S_OK`,
otherwise stores one externally supplied sample per configured channel in
`Readings`.  The per-channel sample source (`analogRead` or an injected
reader) is modelled as the function `analog`. -/
def Read (s : BankState) (analog : ℕ → ℤ) : Bool × BankState :=
  if s.StatusCode ≠ ErrorCodes.S_OK then (false, s)
  else
    (true, { s with
      Readings := fun i => if i < s.SensorCount then analog i else s.Readings i })

/-- Normalize of the multi-channel variant: refuses when
`_StatusCode != S_OK`, otherwise stores `Compensate` of each channel's
cached reading in `Normalized` and the segment marker in `_SegmentBases`. -/
def Normalize (s : BankState) : Bool × BankState :=
  if s.StatusCode ≠ ErrorCodes.S_OK then (false, s)
  else
    (true, { s with
      Normalized := fun i =>
        if i < s.SensorCount then
          (Compensate (s.CalibrationVectors i) s.NormalizedVector s.VectorSize
            (s.Readings i)).1
        else s.Normalized i,
      SegmentBases := fun i =>
        if i < s.SensorCount then
          (Compensate (s.CalibrationVectors i) s.NormalizedVector s.VectorSize
            (s.Readings i)).2
        else s.SegmentBases i })

/-- ReadAndNormalize of the multi-channel variant: `Read`, then `Normalize`
unless `Read` failed. -/
def ReadAndNormalize (s : BankState) (analog : ℕ → ℤ) : Bool × BankState :=
  match Read s analog with
  | (false, s1) => (false, s1)
  | (true, s1) => Normalize s1

end MultiChannel

/-- C1: for raw values above the last breakpoint, the claimed clamp to
`normalized_table[V-1]` with marker ABOVE_RANGE fails on the multi-channel
variant: with V = 4, breakpoints [5, 30, 88, 499] (memory word 600 one past
the table) and normalized table [150, 98, 64, 32] (memory word 777 one
past), `Compensate(999)` returns the word one past the normalized table
(777) instead of `normalized_table[3] = 32`.  The single-channel variant
clamps exactly as claimed on both sides. -/
theorem c1_clamping_above_range :
    MultiChannel.Compensate (fun i => ([5, 30, 88, 499, 600] : List ℤ).getD i 0)
        (fun i => ([150, 98, 64, 32, 777] : List ℤ).getD i 0) 4 999 =
      (777, SEGMENT_INDEX_HIGH) ∧
    (fun i => ([150, 98, 64, 32, 777] : List ℤ).getD i 0) 3 = 32 ∧
    SingleChannel.Compensate (fun i => ([5, 30, 88, 499] : List ℤ).getD i 0)
        (fun i => ([150, 98, 64, 32] : List ℤ).getD i 0) 3 999 =
      (32, SEGMENT_INDEX_HIGH) ∧
    SingleChannel.Compensate (fun i => ([5, 30, 88, 499] : List ℤ).getD i 0)
        (fun i => ([150, 98, 64, 32] : List ℤ).getD i 0) 3 4 =
      (150, SEGMENT_INDEX_LOW) := by decide

/-- C2 counterexample: with the strictly ascending breakpoint table [0, 10]
(V = 2), FindPosition applied to the raw value 11 (above all breakpoints)
returns 1 = V - 1, the very value the claim says is never returned (in the
single-channel variant, `_Count = V - 1` itself is the above-all outcome). -/
theorem c2_counterexample :
    SingleChannel.FindPosition (fun i => ([0, 10] : List ℤ).getD i 0) (2 - 1) 11 =
      (2 : ℤ) - 1 := by decide

/-- C2 amended: for every breakpoint table of size V ≥ 2 strictly ascending
and every raw value, the single-channel FindPosition returns a value in
[-1, V-1]; the outcomes are -1 (below range), the valid segment indices
0..V-2, and V-1 (= `_Count`), which is the above-all outcome rather than
being impossible. -/
theorem c2_amended_range (V : ℕ) (Segments : ℕ → ℤ) (aValue : ℤ)
    (hV : 2 ≤ V) (_hasc : Ascending Segments V) :
    (-1 ≤ SingleChannel.FindPosition Segments (V - 1) aValue ∧
      SingleChannel.FindPosition Segments (V - 1) aValue ≤ (V : ℤ) - 1) ∧
    ((∀ i, i ≤ V - 1 → Segments i < aValue) →
      SingleChannel.FindPosition Segments (V - 1) aValue = (V : ℤ) - 1) := by
  constructor
  · obtain ⟨h1, h2⟩ := SingleChannel.FindPosition_range Segments (V - 1) aValue
    exact ⟨h1, by omega⟩
  · intro h
    rw [SingleChannel.FindPosition_eq_count h]
    omega

theorem c2_amended_range_witness :
    2 ≤ 2 ∧ Ascending (fun i => ([0, 10] : List ℤ).getD i 0) 2 ∧
    (-1 ≤ SingleChannel.FindPosition (fun i => ([0, 10] : List ℤ).getD i 0) (2 - 1) 11 ∧
      SingleChannel.FindPosition (fun i => ([0, 10] : List ℤ).getD i 0) (2 - 1) 11 ≤
        (2 : ℤ) - 1) ∧
    SingleChannel.FindPosition (fun i => ([0, 10] : List ℤ).getD i 0) (2 - 1) 11 =
      (2 : ℤ) - 1 :=
  ⟨by decide, by decide,
    (c2_amended_range 2 (fun i => ([0, 10] : List ℤ).getD i 0) 11 (by decide) (by decide)).1,
    (c2_amended_range 2 (fun i => ([0, 10] : List ℤ).getD i 0) 11 (by decide) (by decide)).2
      (by decide)⟩

/-- C3: the spec scenario on the single-channel variant, with breakpoints
[5, 30, 88, 499] and normalized table [150, 98, 64, 32] (V = 4):
compensate(5) = 150; compensate(47) = 89 = 98 + tdiv(17 * (-34)) 58;
compensate(4) = 150 with marker BELOW_RANGE; compensate(999) = 32 with
marker ABOVE_RANGE. -/
theorem c3_scenario :
    (SingleChannel.Compensate (fun i => ([5, 30, 88, 499] : List ℤ).getD i 0)
        (fun i => ([150, 98, 64, 32] : List ℤ).getD i 0) 3 5).1 = 150 ∧
    (SingleChannel.Compensate (fun i => ([5, 30, 88, 499] : List ℤ).getD i 0)
        (fun i => ([150, 98, 64, 32] : List ℤ).getD i 0) 3 47).1 = 89 ∧
    SingleChannel.Compensate (fun i => ([5, 30, 88, 499] : List ℤ).getD i 0)
        (fun i => ([150, 98, 64, 32] : List ℤ).getD i 0) 3 4 =
      (150, SEGMENT_INDEX_LOW) ∧
    SingleChannel.Compensate (fun i => ([5, 30, 88, 499] : List ℤ).getD i 0)
        (fun i => ([150, 98, 64, 32] : List ℤ).getD i 0) 3 999 =
      (32, SEGMENT_INDEX_HIGH) := by decide

/-- C4: the claimed per-sensor null check fails on the code: `Init` loops
the calibration-vector null check over `aVectorSize` entries, not
`aNumberOfSensors`.  With 1 sensor, vector size 2, the sensor's table
(entry 0) non-null but entry 1 of the array null, and a non-null normalized
table, Init returns MissingCalibrationVector where the claim requires S_OK;
with 3 sensors, vector size 2 and per-sensor entry 2 null, Init returns
S_OK where the claim requires MissingCalibrationVector. -/
theorem c4_calibration_check_wrong_bound :
    MultiChannel.Init 1 (some fun _ => 0) 2
        (fun j => if j = 0 then some (fun _ => (0 : ℤ)) else (none : Option (ℕ → ℤ)))
        (some fun _ => 0) = MultiChannel.ErrorCodes.F_MissingCalibrationVector ∧
    (∀ i, i < 1 →
      ((fun j => if j = 0 then some (fun _ => (0 : ℤ)) else
          (none : Option (ℕ → ℤ))) i).isSome = true) ∧
    MultiChannel.Init 3 (some fun _ => 0) 2
        (fun j => if j = 2 then (none : Option (ℕ → ℤ)) else some (fun _ => (0 : ℤ)))
        (some fun _ => 0) = MultiChannel.ErrorCodes.S_OK ∧
    ((fun j => if j = 2 then (none : Option (ℕ → ℤ)) else
        some (fun _ => (0 : ℤ))) 2).isNone = true := by
  decide

/-- C9: the claimed "fewer than 2 elements gives NotEnoughData" fails at
aNumberOfArrayElements = 0: the byte subtraction `_Count = N - 1` wraps to
255, so the `_Count < 1` test passes and the constructor never reports
F_NOT_ENOUGH_DATA for N = 0 (it scans 255 adjacent pairs instead).  At
N = 1 the code does report F_NOT_ENOUGH_DATA as claimed. -/
theorem c9_constructor_byte_underflow :
    SingleChannel.constructorCount 0 = 255 ∧
    (∀ Segments : ℕ → ℤ,
      SingleChannel.constructorStatus 0 Segments ≠ SingleChannel.F_NOT_ENOUGH_DATA) ∧
    SingleChannel.constructorStatus 1 (fun _ => 0) = SingleChannel.F_NOT_ENOUGH_DATA := by
  refine ⟨rfl, fun Segments => ?_, by decide⟩
  show SingleChannel.InitStatus Segments 255 ≠ SingleChannel.F_NOT_ENOUGH_DATA
  unfold SingleChannel.InitStatus
  rw [if_neg (by omega : ¬(255 : ℕ) < 1)]
  split <;> decide

/-- C5: for every breakpoint table of size V ≥ 2 strictly ascending and its
paired normalized table, compensation at the first breakpoint returns
`normalized[0]` and compensation at the last breakpoint returns
`normalized[V-1]` (the first via the below-range clamp, the second because
the integer interpolation is exact at segment endpoints), in both the
single-channel and the multi-channel variant. -/
theorem c5_boundary_exactness (V : ℕ) (Segments Normalized : ℕ → ℤ)
    (hV : 2 ≤ V) (hasc : Ascending Segments V) :
    (SingleChannel.Compensate Segments Normalized (V - 1) (Segments 0)).1 =
      Normalized 0 ∧
    (SingleChannel.Compensate Segments Normalized (V - 1) (Segments (V - 1))).1 =
      Normalized (V - 1) ∧
    (MultiChannel.Compensate Segments Normalized V (Segments 0)).1 = Normalized 0 ∧
    (MultiChannel.Compensate Segments Normalized V (Segments (V - 1))).1 =
      Normalized (V - 1) := by
  have hlt : ∀ j, j < V - 1 → Segments j < Segments (V - 1) := fun j hj =>
    Ascending_lt hasc hj (by omega)
  have h21 : V - 2 + 1 = V - 1 := by omega
  have hadj : Segments (V - 2) < Segments (V - 1) := by
    have := hasc (V - 2) (by omega)
    rwa [h21] at this
  have htop : ∀ W : ℕ, V - 1 ≤ W →
      (SingleChannel.Compensate Segments Normalized W (Segments (V - 1))).1 =
        Normalized (V - 1) := by
    intro W hW
    have hfp : SingleChannel.FindPosition Segments W (Segments (V - 1)) =
        ((V - 2 : ℕ) : ℤ) :=
      (SingleChannel.FindPosition_eq_seg hW (le_refl _) hlt).trans (by omega)
    rw [SingleChannel.Compensate_seg hfp (by omega)]
    rw [show V - 2 + 1 = V - 1 from h21]
    exact map_right_endpoint hadj
  refine ⟨?_, htop (V - 1) (le_refl _), ?_, htop V (by omega)⟩
  · rw [SingleChannel.Compensate_below (le_refl _)]
  · rw [MultiChannel.Compensate_eq_single,
      SingleChannel.Compensate_below (le_refl _)]

theorem c5_boundary_exactness_witness :
    2 ≤ 4 ∧ Ascending (fun i => ([5, 30, 88, 499] : List ℤ).getD i 0) 4 ∧
    ((SingleChannel.Compensate (fun i => ([5, 30, 88, 499] : List ℤ).getD i 0)
        (fun i => ([150, 98, 64, 32] : List ℤ).getD i 0) (4 - 1)
        ((fun i => ([5, 30, 88, 499] : List ℤ).getD i 0) 0)).1 =
      (fun i => ([150, 98, 64, 32] : List ℤ).getD i 0) 0 ∧
    (SingleChannel.Compensate (fun i => ([5, 30, 88, 499] : List ℤ).getD i 0)
        (fun i => ([150, 98, 64, 32] : List ℤ).getD i 0) (4 - 1)
        ((fun i => ([5, 30, 88, 499] : List ℤ).getD i 0) (4 - 1))).1 =
      (fun i => ([150, 98, 64, 32] : List ℤ).getD i 0) (4 - 1) ∧
    (MultiChannel.Compensate (fun i => ([5, 30, 88, 499] : List ℤ).getD i 0)
        (fun i => ([150, 98, 64, 32] : List ℤ).getD i 0) 4
        ((fun i => ([5, 30, 88, 499] : List ℤ).getD i 0) 0)).1 =
      (fun i => ([150, 98, 64, 32] : List ℤ).getD i 0) 0 ∧
    (MultiChannel.Compensate (fun i => ([5, 30, 88, 499] : List ℤ).getD i 0)
        (fun i => ([150, 98, 64, 32] : List ℤ).getD i 0) 4
        ((fun i => ([5, 30, 88, 499] : List ℤ).getD i 0) (4 - 1))).1 =
      (fun i => ([150, 98, 64, 32] : List ℤ).getD i 0) (4 - 1)) :=
  ⟨by decide, by decide,
    c5_boundary_exactness 4 (fun i => ([5, 30, 88, 499] : List ℤ).getD i 0)
      (fun i => ([150, 98, 64, 32] : List ℤ).getD i 0) (by decide) (by decide)⟩

/-- C6: on a common interpolation segment s ∈ [0, V-2] of a strictly
ascending breakpoint table, the single-channel compensation is monotone in
the raw value: nondecreasing when the normalized table is ascending and
nonincreasing when it is descending. -/
theorem c6_segment_monotonicity (V : ℕ) (Segments Normalized : ℕ → ℤ) (s : ℕ)
    (r1 r2 : ℤ) (hV : 2 ≤ V) (hasc : Ascending Segments V) (hs : s ≤ V - 2)
    (hr : r1 < r2)
    (h1 : SingleChannel.FindPosition Segments (V - 1) r1 = (s : ℤ))
    (h2 : SingleChannel.FindPosition Segments (V - 1) r2 = (s : ℤ)) :
    (NondecreasingOn Normalized V →
      (SingleChannel.Compensate Segments Normalized (V - 1) r1).1 ≤
        (SingleChannel.Compensate Segments Normalized (V - 1) r2).1) ∧
    (NonincreasingOn Normalized V →
      (SingleChannel.Compensate Segments Normalized (V - 1) r2).1 ≤
        (SingleChannel.Compensate Segments Normalized (V - 1) r1).1) := by
  have hs' : s < V - 1 := by omega
  have hseg : Segments s < Segments (s + 1) := hasc s hs'
  rw [SingleChannel.Compensate_seg h1 hs', SingleChannel.Compensate_seg h2 hs']
  constructor
  · intro hnd
    exact map_mono_of_le hseg (hnd s hs') hr.le
  · intro hni
    exact map_anti_of_ge hseg (hni s hs') hr.le

theorem c6_segment_monotonicity_witness :
    2 ≤ 4 ∧ Ascending (fun i => ([5, 30, 88, 499] : List ℤ).getD i 0) 4 ∧
    1 ≤ 4 - 2 ∧ (40 : ℤ) < 47 ∧
    SingleChannel.FindPosition (fun i => ([5, 30, 88, 499] : List ℤ).getD i 0)
      (4 - 1) 40 = ((1 : ℕ) : ℤ) ∧
    SingleChannel.FindPosition (fun i => ([5, 30, 88, 499] : List ℤ).getD i 0)
      (4 - 1) 47 = ((1 : ℕ) : ℤ) ∧
    NonincreasingOn (fun i => ([150, 98, 64, 32] : List ℤ).getD i 0) 4 ∧
    (SingleChannel.Compensate (fun i => ([5, 30, 88, 499] : List ℤ).getD i 0)
        (fun i => ([150, 98, 64, 32] : List ℤ).getD i 0) (4 - 1) 47).1 ≤
      (SingleChannel.Compensate (fun i => ([5, 30, 88, 499] : List ℤ).getD i 0)
        (fun i => ([150, 98, 64, 32] : List ℤ).getD i 0) (4 - 1) 40).1 :=
  ⟨by decide, by decide, by decide, by decide, by decide, by decide, by decide,
    (c6_segment_monotonicity 4 (fun i => ([5, 30, 88, 499] : List ℤ).getD i 0)
        (fun i => ([150, 98, 64, 32] : List ℤ).getD i 0) 1 40 47 (by decide)
        (by decide) (by decide) (by decide) (by decide) (by decide)).2
      (by decide)⟩

/-- C7: for every strictly ascending breakpoint table of size V ≥ 2, a raw
value exactly equal to breakpoint i (1 ≤ i ≤ V-1) is assigned segment
index i - 1, and a raw value equal to breakpoint 0 yields the below-range
outcome -1, in both the single-channel and the multi-channel variant. -/
theorem c7_tie_break (V : ℕ) (Segments : ℕ → ℤ) (hV : 2 ≤ V)
    (hasc : Ascending Segments V) :
    (∀ i, 1 ≤ i → i ≤ V - 1 →
      SingleChannel.FindPosition Segments (V - 1) (Segments i) = (i : ℤ) - 1) ∧
    SingleChannel.FindPosition Segments (V - 1) (Segments 0) = -1 ∧
    (∀ i, 1 ≤ i → i ≤ V - 1 →
      MultiChannel.FindPosition Segments V (Segments i) = (i : ℤ) - 1) ∧
    MultiChannel.FindPosition Segments V (Segments 0) = -1 := by
  have hexact : ∀ i, 1 ≤ i → i ≤ V - 1 → ∀ W : ℕ, i ≤ W →
      SingleChannel.FindPosition Segments W (Segments i) = (i : ℤ) - 1 := by
    intro i h1 h2 W hW
    exact SingleChannel.FindPosition_eq_seg hW (le_refl _) fun j hj =>
      Ascending_lt hasc hj (by omega)
  refine ⟨fun i h1 h2 => hexact i h1 h2 (V - 1) h2, ?_, fun i h1 h2 => ?_, ?_⟩
  · exact SingleChannel.FindPosition_eq_neg_one (le_refl _)
  · rw [MultiChannel.FindPosition_eq_single]
    exact hexact i h1 h2 V (by omega)
  · rw [MultiChannel.FindPosition_eq_single]
    exact SingleChannel.FindPosition_eq_neg_one (le_refl _)

theorem c7_tie_break_witness :
    2 ≤ 4 ∧ Ascending (fun i => ([5, 30, 88, 499] : List ℤ).getD i 0) 4 ∧
    SingleChannel.FindPosition (fun i => ([5, 30, 88, 499] : List ℤ).getD i 0)
      (4 - 1) ((fun i => ([5, 30, 88, 499] : List ℤ).getD i 0) 2) = (2 : ℤ) - 1 ∧
    SingleChannel.FindPosition (fun i => ([5, 30, 88, 499] : List ℤ).getD i 0)
      (4 - 1) ((fun i => ([5, 30, 88, 499] : List ℤ).getD i 0) 0) = -1 ∧
    MultiChannel.FindPosition (fun i => ([5, 30, 88, 499] : List ℤ).getD i 0)
      4 ((fun i => ([5, 30, 88, 499] : List ℤ).getD i 0) 2) = (2 : ℤ) - 1 ∧
    MultiChannel.FindPosition (fun i => ([5, 30, 88, 499] : List ℤ).getD i 0)
      4 ((fun i => ([5, 30, 88, 499] : List ℤ).getD i 0) 0) = -1 :=
  ⟨by decide, by decide,
    (c7_tie_break 4 (fun i => ([5, 30, 88, 499] : List ℤ).getD i 0) (by decide)
        (by decide)).1 2 (by decide) (by decide),
    (c7_tie_break 4 (fun i => ([5, 30, 88, 499] : List ℤ).getD i 0) (by decide)
        (by decide)).2.1,
    (c7_tie_break 4 (fun i => ([5, 30, 88, 499] : List ℤ).getD i 0) (by decide)
        (by decide)).2.2.1 2 (by decide) (by decide),
    (c7_tie_break 4 (fun i => ([5, 30, 88, 499] : List ℤ).getD i 0) (by decide)
        (by decide)).2.2.2⟩

/-- C8: whenever the multi-channel bank's status code is not S_OK, Read,
Normalize and ReadAndNormalize return false and leave the whole state —
in particular the Readings array, the Normalized array and the per-channel
segment markers — unchanged. -/
theorem c8_not_ok_no_mutation (s : MultiChannel.BankState) (analog : ℕ → ℤ)
    (h : s.StatusCode ≠ MultiChannel.ErrorCodes.S_OK) :
    MultiChannel.Read s analog = (false, s) ∧
    MultiChannel.Normalize s = (false, s) ∧
    MultiChannel.ReadAndNormalize s analog = (false, s) := by
  have hr : MultiChannel.Read s analog = (false, s) := by
    unfold MultiChannel.Read
    rw [if_pos h]
  have hn : MultiChannel.Normalize s = (false, s) := by
    unfold MultiChannel.Normalize
    rw [if_pos h]
  refine ⟨hr, hn, ?_⟩
  unfold MultiChannel.ReadAndNormalize
  rw [hr]

/-- Concrete bank state whose status code is F_Uninitialized, used to
witness the failure propagation claim. -/
def failedBank : MultiChannel.BankState :=
  { StatusCode := MultiChannel.ErrorCodes.F_Uninitialized
    Readings := fun _ => 0
    Normalized := fun _ => 0
    SegmentBases := fun _ => 0
    SensorCount := 4
    VectorSize := 16
    CalibrationVectors := fun _ _ => 0
    NormalizedVector := fun _ => 0 }

theorem c8_not_ok_no_mutation_witness :
    failedBank.StatusCode ≠ MultiChannel.ErrorCodes.S_OK ∧
    (MultiChannel.Read failedBank (fun _ => 7) = (false, failedBank) ∧
      MultiChannel.Normalize failedBank = (false, failedBank) ∧
      MultiChannel.ReadAndNormalize failedBank (fun _ => 7) = (false, failedBank)) :=
  ⟨by decide, c8_not_ok_no_mutation failedBank (fun _ => 7) (by decide)⟩

/-- C10: the claimed in-bounds access fails on the multi-channel variant:
with V = 4, breakpoints [5, 30, 88, 499] and raw value 999 (above the last
breakpoint), the FindPosition loop reads indices 0, 1, 2, 3 and 4 of the
breakpoint vector — index 4 = V is one past the table — and Compensate
then returns entry V of the normalized vector, also one past the table. -/
theorem c10_read_one_past_end :
    MultiChannel.FindPositionReads (fun i => ([5, 30, 88, 499, 600] : List ℤ).getD i 0)
        4 999 = [0, 1, 2, 3, 4] ∧
    (MultiChannel.Compensate (fun i => ([5, 30, 88, 499, 600] : List ℤ).getD i 0)
        (fun i => ([150, 98, 64, 32, 777] : List ℤ).getD i 0) 4 999).1 =
      (fun i => ([150, 98, 64, 32, 777] : List ℤ).getD i 0) 4 := by decide
